import Mathlib

/-!
Verification of the conversation-orchestration and response-sanitization
core of the `voice_assistant` repository, as a shallow embedding in Lean.

The embedding models, from `core/ai_engine.py`:
  * `AIEngine._extract_final_answer`  (the response sanitizer),
  * `AIEngine._build_messages`        (context-window rendering),
  * `AIEngine.get_response`           (the backend client, with the
     HTTP interaction abstracted as a `Backend` oracle),
and, from `main.py`:
  * `VoiceAssistant._process_voice_command` and
    `VoiceAssistant._process_command_text`  (the orchestrator cycles,
     with their guard flag and effect traces made explicit).

Strings are modelled as their character lists; Python `str.lower` is
modelled on its ASCII fragment (`Char.toLower`), which agrees with the
source on all inputs used below.
-/

set_option linter.unusedVariables false
set_option maxRecDepth 100000

/-- The whitespace characters of Python's `str.strip` / regex `\s`
(ASCII fragment): space, tab, newline, carriage return, vertical tab,
form feed. -/
def pyWhitespace : List Char := [' ', '\t', '\n', '\r', '\x0b', '\x0c']

def isPyWs (c : Char) : Bool := pyWhitespace.contains c

/-- Python `str.strip(set)`: drop characters of `s` from both ends. -/
def pyStripSet (s : List Char) (l : List Char) : List Char :=
  ((l.dropWhile (fun c => s.contains c)).reverse.dropWhile
    (fun c => s.contains c)).reverse

/-- Python `str.strip()` (whitespace from both ends). -/
def pyStrip (l : List Char) : List Char := pyStripSet pyWhitespace l

/-- Python `str.lower`, ASCII fragment. -/
def pyLower (l : List Char) : List Char := l.map Char.toLower

/-- The apostrophe character. -/
def apos : Char := Char.ofNat 39

/-- The apostrophe, as a one-character string. -/
def aposS : String := String.mk [apos]

/-- `re.findall(r'"([^"]{5,100})"', text)`, as a left-to-right scan.
The scanner is outside a candidate span (`acc = none`) or inside one,
holding the reversed content so far (`acc = some l`).  A closing quote
emits the content when its length is within 5–100; otherwise that quote
opens a new candidate (exactly the backtracking behaviour of the
regular expression's leftmost-match scan). -/
def findQuotedAux : List Char → Option (List Char) → List (List Char)
  | [], _ => []
  | c :: rest, none =>
    if c = '"' then findQuotedAux rest (some [])
    else findQuotedAux rest none
  | c :: rest, some acc =>
    if c = '"' then
      if 5 ≤ acc.length ∧ acc.length ≤ 100 then
        acc.reverse :: findQuotedAux rest none
      else
        findQuotedAux rest (some [])
    else
      findQuotedAux rest (some (c :: acc))

/-- All matches of the quoted-span pattern `"([^"]{5,100})"` in `l`. -/
def findQuoted (l : List Char) : List (List Char) := findQuotedAux l none

/-- Python `text.split('\n')`. -/
def splitLinesAux : List Char → List Char → List (List Char)
  | [], acc => [acc.reverse]
  | c :: rest, acc =>
    if c = '\n' then acc.reverse :: splitLinesAux rest []
    else splitLinesAux rest (c :: acc)

def splitLines (l : List Char) : List (List Char) := splitLinesAux l []

/-- ASCII letter test (regex `[A-Z]`/`[a-z]` under `re.IGNORECASE`). -/
def isAsciiLetter (c : Char) : Bool :=
  ('A' ≤ c && c ≤ 'Z') || ('a' ≤ c && c ≤ 'z')

/-- The literal alternatives of the first thinking pattern
`(?i)(I think|I should|Let me|I need|I'll|I will|Since|Given|The user|Draft|Option|Approach|Constraint|Rule|Step|First|Wait|Hmm|Ok so|So I|My response|I'm going to|thinking|reasoning|considering)`,
lowercased (the pattern is matched case-insensitively at line start). -/
def thinkingStarts : List String :=
  ["i think", "i should", "let me", "i need", "i" ++ aposS ++ "ll",
   "i will", "since", "given", "the user", "draft", "option", "approach",
   "constraint", "rule", "step", "first", "wait", "hmm", "ok so", "so i",
   "my response", "i" ++ aposS ++ "m going to", "thinking", "reasoning",
   "considering"]

/-- `re.match(r"^\d+\.\s*.*$", line)`: one or more digits then a dot. -/
def matchesNumbered (l : List Char) : Bool :=
  let ds := l.takeWhile Char.isDigit
  decide (1 ≤ ds.length) &&
    (match l.drop ds.length with
     | c :: _ => c = '.'
     | [] => false)

/-- `re.match(r"^[-*]\s*.*$", line)`: a dash or asterisk first. -/
def matchesBullet (l : List Char) : Bool :=
  match l with
  | c :: _ => c = '-' || c = '*'
  | [] => false

/-- `re.match(r"^[A-Z][a-z]+:.*$", line, re.IGNORECASE)`: at least two
letters immediately followed by a colon. -/
def matchesLabel (l : List Char) : Bool :=
  let ls := l.takeWhile isAsciiLetter
  decide (2 ≤ ls.length) &&
    (match l.drop ls.length with
     | c :: _ => c = ':'
     | [] => false)

/-- One line "looks like thinking": some pattern of `thinking_patterns`
matches at its start (`re.match`, case-insensitive). -/
def isThinkingLine (l : List Char) : Bool :=
  thinkingStarts.any (fun p => p.data.isPrefixOf (pyLower l)) ||
  matchesNumbered l || matchesBullet l || matchesLabel l

/-- The `skip_starts` literal prefixes checked on the lowercased line. -/
def skipStarts : List String :=
  ["i think", "i should", "let me", "since", "given", "the user", "draft",
   "option", "so i", "i need", "i" ++ aposS ++ "ll", "wait", "hmm", "ok",
   "step", "first", "constraint", "rule", "approach", "my response"]

def isSkipStart (l : List Char) : Bool :=
  skipStarts.any (fun p => p.data.isPrefixOf (pyLower l))

/-- The loop over `text.split('\n')`: strip each line, drop blanks, drop
thinking-pattern lines, drop `skip_starts` lines; the survivors are
`clean_lines`. -/
def cleanLines (text : List Char) : List (List Char) :=
  ((splitLines text).map pyStrip).filter
    (fun l => !l.isEmpty && !isThinkingLine l && !isSkipStart l)

/-- The answer-selection step: the first clean line of length `> 3` not
ending in a colon, else the first clean line, else the untouched input
text. -/
def selectAnswer (text : List Char) : List Char :=
  let cl := cleanLines text
  match cl.find? (fun l => decide (3 < l.length) && !(l.getLastD ' ' = ':')) with
  | some l => l
  | none =>
    match cl with
    | [] => text
    | l0 :: _ => l0

/-- The final cleanup: `re.sub(r'\*+','')`, `re.sub(r'#+','')`, then
`.strip().strip('"\'')`. -/
def cosmetic (l : List Char) : List Char :=
  pyStripSet ['"', apos] (pyStrip ((l.filter (fun c => c ≠ '*')).filter
    (fun c => c ≠ '#')))

def sentencePunct : List Char := ['.', '!', '?']

/-- `re.split(r'(?<=[.!?])\s+', text)` as a left-to-right scan.  `acc`
is the reversed current piece; the flag records being inside the
whitespace run of a split (the greedy `\s+`). -/
def splitSentencesAux : List Char → List Char → Bool → List (List Char)
  | [], acc, _ => [acc.reverse]
  | c :: rest, acc, true =>
    if isPyWs c then splitSentencesAux rest acc true
    else splitSentencesAux rest [c] false
  | c :: rest, acc, false =>
    if isPyWs c &&
       (match acc with
        | p :: _ => sentencePunct.contains p
        | [] => false) then
      acc.reverse :: splitSentencesAux rest [] true
    else
      splitSentencesAux rest (c :: acc) false

def splitSentences (l : List Char) : List (List Char) :=
  splitSentencesAux l [] false

/-- The length bound: over 200 characters, keep the first two sentences,
rejoined with one space. -/
def lengthBound (l : List Char) : List Char :=
  if 200 < l.length then
    List.intercalate [' '] ((splitSentences l).take 2)
  else l

/-- The no-quote branch up to (not including) the length bound:
line filtering, selection, cosmetic cleanup. -/
def preBound (text : List Char) : List Char :=
  cosmetic (selectAnswer text)

/-- The whole no-quote branch of `_extract_final_answer` after the
quoted-span check: line filtering, selection, cleanup, length bound. -/
def sanitizeNoQuote (text : List Char) : List Char :=
  lengthBound (preBound text)

/-- The canned filler utterance. -/
def fillerText : String := "I" ++ aposS ++ "m here to help!"

/-- `AIEngine._extract_final_answer` (ai_engine.py, lines 69–133). -/
def extractFinalAnswer (text : String) : String :=
  if text.data.isEmpty then fillerText
  else
    match findQuoted text.data with
    | [] =>
      let r := sanitizeNoQuote text.data
      if r.isEmpty then fillerText else String.mk r
    | q :: qs =>
      String.mk (pyStrip ((q :: qs).getLastD []))

/-- End-to-end sanitizer scenario A of the design document. -/
theorem scenarioA :
    extractFinalAnswer "I think the answer is \"Paris is the capital of France.\"" =
      "Paris is the capital of France." := by decide

/-- End-to-end sanitizer scenario B of the design document. -/
theorem scenarioB :
    extractFinalAnswer "Let me consider this.\nStep 1: think.\nThe Eiffel Tower is in Paris." =
      "The Eiffel Tower is in Paris." := by decide

/-! ### Helper lemmas about the sanitizer -/

theorem length_pyStripSet_le (s l : List Char) :
    (pyStripSet s l).length ≤ l.length := by
  unfold pyStripSet
  calc ((l.dropWhile (fun c => s.contains c)).reverse.dropWhile
          (fun c => s.contains c)).reverse.length
      = ((l.dropWhile (fun c => s.contains c)).reverse.dropWhile
          (fun c => s.contains c)).length := List.length_reverse _
    _ ≤ (l.dropWhile (fun c => s.contains c)).reverse.length :=
        (List.dropWhile_sublist _).length_le
    _ = (l.dropWhile (fun c => s.contains c)).length := List.length_reverse _
    _ ≤ l.length := (List.dropWhile_sublist _).length_le

theorem findQuotedAux_length_le :
    ∀ (l : List Char) (acc : Option (List Char)),
      ∀ q ∈ findQuotedAux l acc, q.length ≤ 100 := by
  intro l
  induction l with
  | nil => intro acc q hq; simp [findQuotedAux] at hq
  | cons c rest ih =>
    intro acc q hq
    cases acc with
    | none =>
      simp only [findQuotedAux] at hq
      split at hq
      · exact ih _ q hq
      · exact ih _ q hq
    | some a =>
      simp only [findQuotedAux] at hq
      split at hq
      · split at hq
        · rcases List.mem_cons.mp hq with h | h
          · subst h
            simpa using (by assumption : 5 ≤ a.length ∧ a.length ≤ 100).2
          · exact ih _ q h
        · exact ih _ q hq
      · exact ih _ q hq

theorem getLastD_mem_cons (a : List Char) (l : List (List Char)) :
    (a :: l).getLastD [] ∈ a :: l := by
  induction l generalizing a with
  | nil => simp
  | cons b t ih =>
    have : (a :: b :: t).getLastD [] = (b :: t).getLastD [] := by
      simp [List.getLastD]
    rw [this]
    exact List.mem_cons_of_mem a (ih b)

theorem splitSentencesAux_ne_nil :
    ∀ (l acc : List Char) (b : Bool), splitSentencesAux l acc b ≠ [] := by
  intro l
  induction l with
  | nil => intro acc b; simp [splitSentencesAux]
  | cons c rest ih =>
    intro acc b
    cases b with
    | true =>
      simp only [splitSentencesAux]
      split
      · exact ih _ _
      · exact ih _ _
    | false =>
      simp only [splitSentencesAux]
      split
      · simp
      · exact ih _ _

theorem splitSentencesAux_dropLast_punct :
    ∀ (l acc : List Char) (b : Bool),
      ∀ p ∈ (splitSentencesAux l acc b).dropLast,
        p ≠ [] ∧ sentencePunct.contains (p.getLastD ' ') = true := by
  intro l
  induction l with
  | nil => intro acc b p hp; simp [splitSentencesAux] at hp
  | cons c rest ih =>
    intro acc b p hp
    cases b with
    | true =>
      simp only [splitSentencesAux] at hp
      split at hp
      · exact ih _ _ p hp
      · exact ih _ _ p hp
    | false =>
      simp only [splitSentencesAux] at hp
      split at hp
      · rename_i hcond
        rw [List.dropLast_cons_of_ne_nil (splitSentencesAux_ne_nil _ _ _)] at hp
        rcases List.mem_cons.mp hp with h | h
        · subst h
          cases hacc : acc with
          | nil => rw [hacc] at hcond; simp at hcond
          | cons a as =>
            rw [hacc] at hcond
            have hpunct : sentencePunct.contains a = true := by
              simpa using (Bool.and_eq_true_iff.mp hcond).2
            constructor
            · simp
            · rw [List.reverse_cons, List.getLastD_concat]
              exact hpunct
        · exact ih _ _ p h
      · exact ih _ _ p hp

/-! ### The backend client (`AIEngine`, ai_engine.py) -/

/-- A chat turn (`Message` dataclass). -/
structure Message where
  role : String
  content : String
deriving DecidableEq

/-- The fixed system prompt (`AIEngine.system_prompt`). -/
def systemPrompt : String :=
  "You are Nebula, an advanced voice assistant.\n\nCRITICAL RULES:\n" ++
  "1. OUTPUT ONLY YOUR FINAL ANSWER - never show thinking, reasoning, or drafts\n" ++
  "2. Keep responses to 1-2 sentences (will be spoken aloud)\n" ++
  "3. Be direct, natural, and conversational\n" ++
  "4. Stay factual - if unsure, say so honestly\n" ++
  "5. Never speculate or make claims you can" ++ aposS ++ "t verify\n" ++
  "6. Maintain context from previous conversation\n" ++
  "7. Use plain speech - no markdown, asterisks, or formatting\n\n" ++
  "RESPOND TO THE USER DIRECTLY. NO EXPLANATIONS OF WHAT YOU" ++ aposS ++
  "RE DOING."

/-- `AIEngine.max_history`. -/
def maxHistory : Nat := 20

/-- Python `l[-n:]`. -/
def lastN (n : Nat) (l : List Message) : List Message :=
  l.drop (l.length - n)

/-- The current user message content: the screen context, truncated to
200 characters, as a bracketed prefix line (ai_engine.py, lines 144–147). -/
def userContent (user_input : String) (screen_context : Option String) : String :=
  match screen_context with
  | some s =>
    "[Screen context: " ++ String.mk (s.data.take 200) ++ "]\n" ++ user_input
  | none => user_input

/-- `AIEngine._build_messages` (ai_engine.py, lines 135–150). -/
def buildMessages (history : List Message) (user_input : String)
    (screen_context : Option String) : List Message :=
  (⟨"system", systemPrompt⟩ : Message) ::
    (lastN maxHistory history ++ [⟨"user", userContent user_input screen_context⟩])

/-- Response payload shapes: a `"message"` envelope with a `"content"`
field, a `"response"` field, any other JSON value (stringified by the
code), or a body on which `.json()` raises. -/
inductive JsonBody
  | message (content : String)
  | responseField (content : String)
  | other (stringified : String)
  | malformed
deriving DecidableEq

/-- Outcome of one HTTP POST: a status-and-body reply, or a raised
transport exception (timeout, connection error, …). -/
inductive HttpResult
  | ok (status : Nat) (body : JsonBody)
  | transportError (msg : String)
deriving DecidableEq

/-- The backend oracle: the reply the service would give on the primary
`/chat` shape and on the secondary `/generate` shape. -/
structure Backend where
  primary : HttpResult
  secondary : HttpResult
deriving DecidableEq

/-- An HTTP request issued by `get_response`, by endpoint shape. -/
inductive Request
  | chat (messages : List Message)
  | generate (prompt : String)
deriving DecidableEq

/-- `AIResponse` (provider and model are constant and omitted). -/
structure AIResponse where
  content : String
  success : Bool
  error : Option String
deriving DecidableEq

/-- The prompt of the secondary `/generate` request
(ai_engine.py, line 184). -/
def generatePrompt (user_input : String) : String :=
  systemPrompt ++ "\n\nUser: " ++ user_input ++ "\n\nAssistant:"

/-- `data["message"]["content"]` / `data["response"]` / `str(data)`
extraction (ai_engine.py, lines 204–209); `none` when `.json()` raises. -/
def extractRaw : JsonBody → Option String
  | .message c => some c
  | .responseField c => some c
  | .other s => some s
  | .malformed => none

/-- Result of `AIEngine.get_response`: the returned `AIResponse`, the
engine history after the call, and the HTTP requests issued (in order). -/
structure GetResponseOut where
  resp : AIResponse
  history : List Message
  requests : List Request
deriving DecidableEq

/-- `AIEngine.get_response` (ai_engine.py, lines 152–245).  The two
`except` arms are the `success := false` branches; history is appended
only in the success path (lines 216–218). -/
def get_response (b : Backend) (history : List Message) (user_input : String)
    (screen_context : Option String) : GetResponseOut :=
  let messages := buildMessages history user_input screen_context
  match b.primary with
  | .transportError e =>
    { resp := ⟨"Sorry, something went wrong.", false, some e⟩,
      history := history, requests := [.chat messages] }
  | .ok status body =>
    let afterFallback :=
      if status = 404 then
        (b.secondary, [Request.chat messages,
                       Request.generate (generatePrompt user_input)])
      else
        (HttpResult.ok status body, [Request.chat messages])
    match afterFallback with
    | (.transportError e, reqs) =>
      { resp := ⟨"Sorry, something went wrong.", false, some e⟩,
        history := history, requests := reqs }
    | (.ok st2 body2, reqs) =>
      if 400 ≤ st2 then
        { resp := ⟨"Sorry, I couldn" ++ aposS ++ "t process that.", false,
                   some ("HTTP " ++ toString st2)⟩,
          history := history, requests := reqs }
      else
        match extractRaw body2 with
        | none =>
          { resp := ⟨"Sorry, something went wrong.", false,
                     some "JSON decode error"⟩,
            history := history, requests := reqs }
        | some raw =>
          let content := extractFinalAnswer raw
          { resp := ⟨content, true, none⟩,
            history := history ++ [⟨"user", user_input⟩,
                                   ⟨"assistant", content⟩],
            requests := reqs }

/-- `AIEngine.clear_history`. -/
def clear_history : List Message := []

/-! ### The orchestrator (`VoiceAssistant`, main.py) -/

/-- The screen keyword list of `_process_voice_command`
(main.py, line 145). -/
def voiceScreenKeywords : List String :=
  ["screen", "see", "show", "read", "what" ++ aposS ++ "s on", "look at"]

/-- The screen keyword list of `_process_command_text`
(main.py, line 245) — note the absence of "look at". -/
def textScreenKeywords : List String :=
  ["screen", "see", "show", "read", "what" ++ aposS ++ "s on"]

/-- Python's substring test `needle in hay`. -/
def containsSub (needle : List Char) : List Char → Bool
  | [] => needle.isEmpty
  | c :: rest => needle.isPrefixOf (c :: rest) || containsSub needle rest

/-- `any(kw in text.lower() for kw in kws)`. -/
def wantsScreen (kws : List String) (text : String) : Bool :=
  kws.any (fun kw => containsSub kw.data (pyLower text.data))

/-- The mutable orchestrator state the claims are about: the
`_processing` guard flag and the engine conversation history. -/
structure AssistantState where
  processing : Bool
  history : List Message
deriving DecidableEq

/-- Externally observable actions of one command-processing cycle, in
order of occurrence. -/
inductive Effect
  | sttListen
  | screenCapture
  | httpPost (req : Request)
  | speak (text : String)
deriving DecidableEq

/-- The environment of one cycle: what the external collaborators would
do if invoked (speech result, screen summary, backend replies, and
whether the screen reader or the TTS raise an exception). -/
structure Env where
  sttOk : Bool
  sttText : String
  screenSummary : String
  backend : Backend
  screenRaises : Bool
  ttsRaises : Bool

/-- Result of one command-processing cycle: the state after it, the
trace of effects, the arguments of each `ai.get_response` call, and
whether an exception propagated to the caller. -/
structure CycleOut where
  state : AssistantState
  effects : List Effect
  aiCalls : List (String × Option String)
  raised : Bool
deriving DecidableEq

def errorMessage : String :=
  "I" ++ aposS ++ "m sorry, I didn" ++ aposS ++
  "t catch that. Could you repeat?"

def processingMessage : String := "Let me think about that..."

/-- `VoiceAssistant._process_command_text` (main.py, lines 235–265).
The body runs under `try`/`finally`: an exception from the screen
reader or the TTS propagates (`raised := true`) but the `finally`
block always clears `_processing`. -/
def processCommandText (env : Env) (st : AssistantState) (text : String) :
    CycleOut :=
  if st.processing then
    ⟨st, [], [], false⟩
  else
    let wantScreen := wantsScreen textScreenKeywords text
    if wantScreen && env.screenRaises then
      ⟨⟨false, st.history⟩, [.screenCapture], [], true⟩
    else
      let sc := if wantScreen then some env.screenSummary else none
      let scEff : List Effect := if wantScreen then [.screenCapture] else []
      let out := get_response env.backend st.history text sc
      let httpEffs := out.requests.map Effect.httpPost
      if env.ttsRaises then
        ⟨⟨false, out.history⟩, scEff ++ httpEffs, [(text, sc)], true⟩
      else
        let spoken := if out.resp.success then out.resp.content
          else "I couldn" ++ aposS ++ "t get a response."
        ⟨⟨false, out.history⟩, scEff ++ httpEffs ++ [.speak spoken],
         [(text, sc)], false⟩

/-- `VoiceAssistant._process_voice_command` (main.py, lines 121–176).
The body runs under `try`/`except`/`finally`: exceptions are caught
(the apology is spoken), and the `finally` block always clears
`_processing`. -/
def processVoiceCommand (env : Env) (st : AssistantState) : CycleOut :=
  if st.processing then
    ⟨st, [], [], false⟩
  else
    if !env.sttOk then
      ⟨⟨false, st.history⟩, [.sttListen, .speak errorMessage], [], false⟩
    else
      let text := env.sttText
      let wantScreen := wantsScreen voiceScreenKeywords text
      if wantScreen && env.screenRaises then
        ⟨⟨false, st.history⟩,
         [.sttListen, .screenCapture, .speak "Sorry, something went wrong."],
         [], false⟩
      else
        let sc := if wantScreen then some env.screenSummary else none
        let scEff : List Effect := if wantScreen then [.screenCapture] else []
        if env.ttsRaises then
          ⟨⟨false, st.history⟩,
           .sttListen :: (scEff ++ [.speak "Sorry, something went wrong."]),
           [], false⟩
        else
          let out := get_response env.backend st.history text sc
          let httpEffs := out.requests.map Effect.httpPost
          let spoken := if out.resp.success then out.resp.content
            else "I" ++ aposS ++ "m sorry, I couldn" ++ aposS ++
              "t get a response. Please try again."
          ⟨⟨false, out.history⟩,
           .sttListen :: (scEff ++ [.speak processingMessage] ++ httpEffs ++
             [.speak spoken]),
           [(text, sc)], false⟩

/-! ### Context-history invariant -/

/-- Histories reachable through the engine's public operations:
the fresh engine, `get_response`, and `clear_history`. -/
inductive Reachable : List Message → Prop
  | init : Reachable []
  | step (b : Backend) (u : String) (sc : Option String) {h : List Message} :
      Reachable h → Reachable (get_response b h u sc).history
  | clear {h : List Message} : Reachable h → Reachable clear_history

/-- A history made of complete (user, assistant) pairs in order. -/
inductive Paired : List Message → Prop
  | nil : Paired []
  | cons (u a : String) {t : List Message} :
      Paired t → Paired (⟨"user", u⟩ :: ⟨"assistant", a⟩ :: t)

/-! ### More helper lemmas -/

theorem getLastD_of_ne_nil (b : List Char) (hb : b ≠ []) (x y : Char) :
    b.getLastD x = b.getLastD y := by
  cases b with
  | nil => exact absurd rfl hb
  | cons c t => rfl

theorem getLastD_append_right (a b : List Char) (hb : b ≠ []) (d : Char) :
    (a ++ b).getLastD d = b.getLastD d := by
  induction a generalizing d with
  | nil => rfl
  | cons x xs ih =>
    have h1 : (x :: xs ++ b).getLastD d = (xs ++ b).getLastD x :=
      List.getLastD_cons d x (xs ++ b)
    rw [h1, ih x]
    exact getLastD_of_ne_nil b hb x d

theorem intercalate_two (a b : List Char) :
    List.intercalate [' '] [a, b] = a ++ ' ' :: b := by
  simp [List.intercalate, List.intersperse]

theorem string_mk_length (l : List Char) : (String.mk l).length = l.length := rfl

/-! ### Claim C1 -/

/-- C1: whenever the quoted-span pattern `"([^"]{5,100})"` has at least
one match in the raw output, `_extract_final_answer` returns exactly the
trimmed content of the last match; the later rules (line filtering,
cosmetic cleanup, length bound) are not applied. -/
theorem quoted_last_span_short_circuits (t : String)
    (h : findQuoted t.data ≠ []) :
    extractFinalAnswer t =
      String.mk (pyStrip ((findQuoted t.data).getLastD [])) := by
  have hne : t.data.isEmpty = false := by
    cases hd : t.data with
    | nil => exact absurd (by simp [findQuoted, findQuotedAux, hd]) h
    | cons c cs => simp [hd]
  cases hq : findQuoted t.data with
  | nil => exact absurd hq h
  | cons q qs => simp [extractFinalAnswer, hne, hq]

/-- Witness for C1 at a concrete raw output with two quoted spans. -/
theorem quoted_last_span_short_circuits_witness :
    findQuoted ("say \"first span\" or \" the last span \"").data ≠ [] ∧
      extractFinalAnswer "say \"first span\" or \" the last span \"" =
        String.mk (pyStrip
          ((findQuoted ("say \"first span\" or \" the last span \"").data).getLastD [])) :=
  ⟨by decide, quoted_last_span_short_circuits _ (by decide)⟩

/-! ### Claim C2 -/

/-- C2 counterexample: on 201 letters `a` (one "sentence" with no
sentence-ending punctuation) the sanitizer returns all 201 characters,
so the output length is not always ≤ 200. -/
theorem length_bound_cex :
    200 < (extractFinalAnswer (String.mk (List.replicate 201 'a'))).length := by
  decide

/-- C2 (amended): the result has length ≤ 200 unless the length bound
fires and the cleaned text's first two sentences are themselves longer
than 200 characters; when the bound fires the result is exactly the
first two sentences rejoined with one space, and when at least one
sentence is actually dropped the result ends with sentence-ending
punctuation (never mid-word). -/
theorem length_bound_two_sentences (t : String) :
    (extractFinalAnswer t).length ≤ 200 ∨
    ((extractFinalAnswer t).data =
        List.intercalate [' '] ((splitSentences (preBound t.data)).take 2) ∧
      (3 ≤ (splitSentences (preBound t.data)).length →
        sentencePunct.contains ((extractFinalAnswer t).data.getLastD ' ') = true)) := by
  by_cases hemp : t.data.isEmpty
  · left
    simp [extractFinalAnswer, hemp]
    decide
  · cases hq : findQuoted t.data with
    | cons q qs =>
      left
      rw [quoted_last_span_short_circuits t (by rw [hq]; simp)]
      rw [hq, string_mk_length]
      have hmem : (q :: qs).getLastD [] ∈ q :: qs := getLastD_mem_cons q qs
      have h100 : ((q :: qs).getLastD []).length ≤ 100 := by
        have := findQuotedAux_length_le t.data none
        rw [show findQuotedAux t.data none = findQuoted t.data from rfl, hq] at this
        exact this _ hmem
      calc (pyStrip ((q :: qs).getLastD [])).length
          ≤ ((q :: qs).getLastD []).length := length_pyStripSet_le _ _
        _ ≤ 100 := h100
        _ ≤ 200 := by omega
    | nil =>
      by_cases hlong : 200 < (preBound t.data).length
      · have hval : sanitizeNoQuote t.data =
            List.intercalate [' '] ((splitSentences (preBound t.data)).take 2) := by
          simp [sanitizeNoQuote, lengthBound, hlong]
        by_cases hzero : (sanitizeNoQuote t.data).isEmpty
        · left
          simp [extractFinalAnswer, hemp, hq, hzero]
          decide
        · right
          have hres : extractFinalAnswer t = String.mk (sanitizeNoQuote t.data) := by
            simp [extractFinalAnswer, hemp, hq, hzero]
          constructor
          · rw [hres, hval]
          · intro h3
            rcases hp : splitSentences (preBound t.data) with _ | ⟨p0, _ | ⟨p1, rest⟩⟩
            · rw [hp] at h3; simp at h3
            · rw [hp] at h3; simp at h3
            · cases rest with
              | nil => rw [hp] at h3; simp at h3
              | cons p2 rest2 =>
                have hp1 : p1 ∈ (splitSentences (preBound t.data)).dropLast := by
                  rw [hp]
                  rw [List.dropLast_cons_of_ne_nil (by simp),
                      List.dropLast_cons_of_ne_nil (by simp)]
                  simp
                have hpunct := splitSentencesAux_dropLast_punct _ _ _ _ hp1
                rw [hres, hval, hp]
                have htake : (p0 :: p1 :: p2 :: rest2).take 2 = [p0, p1] := rfl
                rw [htake, intercalate_two]
                have hdata : (String.mk (p0 ++ ' ' :: p1)).data = p0 ++ ' ' :: p1 := rfl
                rw [hdata]
                rw [show p0 ++ ' ' :: p1 = (p0 ++ [' ']) ++ p1 by simp]
                rw [getLastD_append_right _ _ hpunct.1]
                exact hpunct.2
      · left
        have hval : sanitizeNoQuote t.data = preBound t.data := by
          simp [sanitizeNoQuote, lengthBound, hlong]
        by_cases hzero : (sanitizeNoQuote t.data).isEmpty
        · simp [extractFinalAnswer, hemp, hq, hzero]
          decide
        · have hres : extractFinalAnswer t = String.mk (sanitizeNoQuote t.data) := by
            simp [extractFinalAnswer, hemp, hq, hzero]
          rw [hres, string_mk_length, hval]
          omega

/-- Witness for C2 (amended) at a concrete input. -/
theorem length_bound_two_sentences_witness :
    (extractFinalAnswer "A plain answer.").length ≤ 200 ∨
    ((extractFinalAnswer "A plain answer.").data =
        List.intercalate [' ']
          ((splitSentences (preBound ("A plain answer.").data)).take 2) ∧
      (3 ≤ (splitSentences (preBound ("A plain answer.").data)).length →
        sentencePunct.contains
          ((extractFinalAnswer "A plain answer.").data.getLastD ' ') = true)) :=
  length_bound_two_sentences "A plain answer."

/-! ### Claim C3 -/

/-- C3 counterexample: `"I think so."` consists solely of
reasoning-marker lines (no quoted span, no surviving clean line), yet
the sanitizer returns the text itself, not the canned filler. -/
theorem all_filtered_not_filler_cex :
    findQuoted ("I think so.").data = [] ∧
      cleanLines ("I think so.").data = [] ∧
      extractFinalAnswer "I think so." = "I think so." ∧
      extractFinalAnswer "I think so." ≠ fillerText := by
  refine ⟨by decide, by decide, by decide, ?_⟩
  decide

/-- C3 (amended): on raw output consisting solely of blank lines and
reasoning-marker lines (and containing no quoted span), the sanitizer
falls back to the *whole untouched text*, returning it after cosmetic
cleanup and the length bound — the canned filler is returned only when
that result is empty — and in this situation it never returns the empty
string. -/
theorem all_filtered_returns_cleaned_text (t : String)
    (h1 : findQuoted t.data = []) (h2 : cleanLines t.data = []) :
    extractFinalAnswer t =
      (if (lengthBound (cosmetic t.data)).isEmpty then fillerText
       else String.mk (lengthBound (cosmetic t.data))) ∧
      extractFinalAnswer t ≠ "" := by
  have hsel : selectAnswer t.data = t.data := by
    unfold selectAnswer
    rw [h2]
    rfl
  have hnq : sanitizeNoQuote t.data = lengthBound (cosmetic t.data) := by
    unfold sanitizeNoQuote preBound
    rw [hsel]
  by_cases hemp : t.data.isEmpty
  · have ht : t.data = [] := by
      cases hd : t.data with
      | nil => rfl
      | cons c cs => rw [hd] at hemp; simp at hemp
    constructor
    · simp [extractFinalAnswer, hemp, ht]
      decide
    · simp [extractFinalAnswer, hemp]
      decide
  · by_cases hzero : (sanitizeNoQuote t.data).isEmpty
    · rw [hnq] at hzero
      constructor
      · simp [extractFinalAnswer, hemp, h1, hnq, hzero]
      · simp [extractFinalAnswer, hemp, h1, hnq, hzero]
        decide
    · rw [hnq] at hzero
      constructor
      · simp [extractFinalAnswer, hemp, h1, hnq, hzero]
      · simp [extractFinalAnswer, hemp, h1, hnq, hzero]
        intro hcontra
        have : lengthBound (cosmetic t.data) = [] := congrArg String.data hcontra
        rw [this] at hzero
        simp at hzero

/-- Witness for C3 (amended) at the concrete input `"I think so."`. -/
theorem all_filtered_returns_cleaned_text_witness :
    (findQuoted ("I think so.").data = [] ∧ cleanLines ("I think so.").data = []) ∧
      (extractFinalAnswer "I think so." =
        (if (lengthBound (cosmetic ("I think so.").data)).isEmpty then fillerText
         else String.mk (lengthBound (cosmetic ("I think so.").data))) ∧
        extractFinalAnswer "I think so." ≠ "") :=
  ⟨⟨by decide, by decide⟩,
   all_filtered_returns_cleaned_text "I think so." (by decide) (by decide)⟩

/-! ### Structure of `get_response` -/

/-- Helper: each call either leaves the history unchanged (all failure
branches) or appends exactly the (user, assistant) pair of the exchange
(the success branch). -/
theorem get_response_history_cases (b : Backend) (h : List Message)
    (u : String) (sc : Option String) :
    ((get_response b h u sc).resp.success = false ∧
      (get_response b h u sc).history = h) ∨
    ((get_response b h u sc).resp.success = true ∧
      (get_response b h u sc).history =
        h ++ [⟨"user", u⟩, ⟨"assistant", (get_response b h u sc).resp.content⟩]) := by
  unfold get_response
  cases b.primary with
  | transportError e => left; simp
  | ok status body =>
    by_cases h404 : status = 404
    · simp only [h404, if_pos rfl]
      cases b.secondary with
      | transportError e => left; simp
      | ok st2 body2 =>
        by_cases hge : 400 ≤ st2
        · left; simp [hge]
        · cases body2 with
          | message c => right; simp [hge, extractRaw]
          | responseField c => right; simp [hge, extractRaw]
          | other s => right; simp [hge, extractRaw]
          | malformed => left; simp [hge, extractRaw]
    · simp only [if_neg h404]
      by_cases hge : 400 ≤ status
      · left; simp [hge]
      · cases body with
        | message c => right; simp [hge, extractRaw]
        | responseField c => right; simp [hge, extractRaw]
        | other s => right; simp [hge, extractRaw]
        | malformed => left; simp [hge, extractRaw]

/-! ### Claim C4 -/

/-- C4: whenever `get_response` returns a failure (transport error,
HTTP error status, malformed or unusable body), the conversation
history is exactly what it was before the call — no user turn and no
assistant turn is appended, not even partially. -/
theorem failed_call_leaves_history (b : Backend) (h : List Message)
    (u : String) (sc : Option String)
    (hf : (get_response b h u sc).resp.success = false) :
    (get_response b h u sc).history = h := by
  rcases get_response_history_cases b h u sc with ⟨_, heq⟩ | ⟨hs, _⟩
  · exact heq
  · rw [hs] at hf; cases hf

/-- Witness for C4: a backend that times out on the primary shape. -/
theorem failed_call_leaves_history_witness :
    (get_response ⟨.transportError "timeout", .ok 200 (.message "unused")⟩
        [⟨"user", "a"⟩, ⟨"assistant", "b"⟩] "hello" none).resp.success = false ∧
      (get_response ⟨.transportError "timeout", .ok 200 (.message "unused")⟩
        [⟨"user", "a"⟩, ⟨"assistant", "b"⟩] "hello" none).history =
        [⟨"user", "a"⟩, ⟨"assistant", "b"⟩] :=
  ⟨by decide,
   failed_call_leaves_history _ _ _ _ (by decide)⟩

/-! ### Claim C5 -/

theorem Paired.append_pair (u a : String) {h : List Message}
    (hp : Paired h) : Paired (h ++ [⟨"user", u⟩, ⟨"assistant", a⟩]) := by
  induction hp with
  | nil => exact Paired.cons u a Paired.nil
  | cons u' a' hp' ih => simpa using Paired.cons u' a' ih

theorem Paired.drop_even :
    ∀ (k : Nat) {h : List Message}, Paired h → Paired (h.drop (2 * k)) := by
  intro k
  induction k with
  | zero => intro h hp; simpa using hp
  | succ n ih =>
    intro h hp
    cases hp with
    | nil => simp; exact Paired.nil
    | cons u a hp' =>
      rename_i t
      have harith : 2 * (n + 1) = (2 * n) + 1 + 1 := by omega
      rw [harith]
      simpa using ih hp'

theorem Paired.length_even {h : List Message} (hp : Paired h) :
    h.length % 2 = 0 := by
  induction hp with
  | nil => rfl
  | cons u a hp' ih => simp [ih]; omega

theorem Paired.lastN_window {h : List Message} (hp : Paired h) :
    Paired (lastN maxHistory h) := by
  unfold lastN maxHistory
  by_cases hle : h.length ≤ 20
  · have : h.length - 20 = 0 := by omega
    rw [this]
    simpa using hp
  · have heven := hp.length_even
    have : h.length - 20 = 2 * ((h.length - 20) / 2) := by omega
    rw [this]
    exact Paired.drop_even _ hp

/-- C5: every reachable conversation history consists of complete
(user, assistant) pairs appended in that order, and the window rendered
into each backend request holds at most the 20 most recent turns and
never splits a pair. -/
theorem history_paired_window_bounded {h : List Message}
    (hr : Reachable h) :
    Paired h ∧ (lastN maxHistory h).length ≤ maxHistory ∧
      Paired (lastN maxHistory h) := by
  have hp : Paired h := by
    induction hr with
    | init => exact Paired.nil
    | step b u sc hr' ih =>
      rcases get_response_history_cases b _ u sc with ⟨_, heq⟩ | ⟨_, heq⟩
      · rw [heq]; exact ih
      · rw [heq]; exact ih.append_pair _ _
    | clear hr' ih => exact Paired.nil
  refine ⟨hp, ?_, hp.lastN_window⟩
  unfold lastN
  rw [List.length_drop]
  unfold maxHistory
  omega

/-- Witness for C5: the history reached by one successful exchange on a
fresh engine. -/
theorem history_paired_window_bounded_witness :
    Paired (get_response ⟨.ok 200 (.message "Sure thing."), .ok 200 (.message "x")⟩
        [] "hi" none).history ∧
      (lastN maxHistory (get_response ⟨.ok 200 (.message "Sure thing."),
        .ok 200 (.message "x")⟩ [] "hi" none).history).length ≤ maxHistory ∧
      Paired (lastN maxHistory (get_response ⟨.ok 200 (.message "Sure thing."),
        .ok 200 (.message "x")⟩ [] "hi" none).history) :=
  history_paired_window_bounded
    (Reachable.step ⟨.ok 200 (.message "Sure thing."), .ok 200 (.message "x")⟩
      "hi" none Reachable.init)

/-! ### Claim C6 -/

/-- C6: while `_processing` is held, a second command-processing call
(text or voice) returns immediately — no effects, no backend call, no
state change; and when a cycle does run, the guard is cleared on every
exit path (success, failure, and exception). -/
theorem guard_mutual_exclusion (env : Env) (st : AssistantState)
    (text : String) :
    (st.processing = true →
      processCommandText env st text = ⟨st, [], [], false⟩ ∧
      processVoiceCommand env st = ⟨st, [], [], false⟩) ∧
    (st.processing = false →
      (processCommandText env st text).state.processing = false ∧
      (processVoiceCommand env st).state.processing = false) := by
  constructor
  · intro h
    exact ⟨by simp [processCommandText, h], by simp [processVoiceCommand, h]⟩
  · intro h
    constructor
    · simp only [processCommandText, h, Bool.false_eq_true, if_false]
      split_ifs <;> rfl
    · simp only [processVoiceCommand, h, Bool.false_eq_true, if_false]
      split_ifs <;> rfl

/-- Witness for C6: with the guard held nothing happens; with the guard
free the cycle always ends with the guard cleared (here: on the
exception path of a raising TTS). -/
theorem guard_mutual_exclusion_witness :
    (processCommandText ⟨true, "hi", "s", ⟨.ok 200 (.message "Ok then."),
        .ok 200 (.message "x")⟩, false, true⟩ ⟨true, []⟩ "hello" =
      ⟨⟨true, []⟩, [], [], false⟩) ∧
    (processCommandText ⟨true, "hi", "s", ⟨.ok 200 (.message "Ok then."),
        .ok 200 (.message "x")⟩, false, true⟩ ⟨false, []⟩ "hello").state.processing
      = false :=
  ⟨((guard_mutual_exclusion _ ⟨true, []⟩ "hello").1 rfl).1,
   ((guard_mutual_exclusion _ ⟨false, []⟩ "hello").2 rfl).1⟩

/-! ### Claim C7 -/

/-- C7: on HTTP 404 from the primary `/chat` shape, exactly one retry is
issued, against the secondary `/generate` shape; if that retry fails
too (transport error or HTTP error status), a failure result is
returned with no further retries. -/
theorem retry_once_on_404 (b : Backend) (h : List Message) (u : String)
    (sc : Option String) (body : JsonBody)
    (hp : b.primary = .ok 404 body) :
    (get_response b h u sc).requests =
      [.chat (buildMessages h u sc), .generate (generatePrompt u)] ∧
    (∀ e, b.secondary = .transportError e →
      (get_response b h u sc).resp.success = false) ∧
    (∀ s2 bd, b.secondary = .ok s2 bd → 400 ≤ s2 →
      (get_response b h u sc).resp.success = false) := by
  refine ⟨?_, ?_, ?_⟩
  · unfold get_response
    rw [hp]
    simp only [if_pos rfl]
    cases hs : b.secondary with
    | transportError e => simp
    | ok s2 bd =>
      by_cases hge : 400 ≤ s2
      · simp [hge]
      · cases bd <;> simp [hge, extractRaw]
  · intro e hs
    unfold get_response
    rw [hp]
    simp only [if_pos rfl]
    rw [hs]
    simp
  · intro s2 bd hs hge
    unfold get_response
    rw [hp]
    simp only [if_pos rfl]
    rw [hs]
    simp [hge]

/-- Witness for C7: primary 404, secondary 404 as well. -/
theorem retry_once_on_404_witness :
    (get_response ⟨.ok 404 .malformed, .ok 404 .malformed⟩ [] "hi" none).requests =
      [.chat (buildMessages [] "hi" none), .generate (generatePrompt "hi")] ∧
    (∀ e, (⟨.ok 404 .malformed, .ok 404 .malformed⟩ : Backend).secondary =
        .transportError e →
      (get_response ⟨.ok 404 .malformed, .ok 404 .malformed⟩ [] "hi" none).resp.success
        = false) ∧
    (∀ s2 bd, (⟨.ok 404 .malformed, .ok 404 .malformed⟩ : Backend).secondary =
        .ok s2 bd → 400 ≤ s2 →
      (get_response ⟨.ok 404 .malformed, .ok 404 .malformed⟩ [] "hi" none).resp.success
        = false) :=
  retry_once_on_404 _ [] "hi" none .malformed rfl

/-! ### Claim C8 -/

/-- C8 counterexample: a success status whose payload has neither a
`"message"` nor a `"response"` field does *not* yield a protocol
failure — `get_response` stringifies the payload and returns success. -/
theorem unknown_shape_is_success_cex :
    (get_response ⟨.ok 200 (.other "some unexpected payload"),
        .ok 200 (.message "ignored")⟩ [] "hi" none).resp.success = true := by
  decide

/-- C8 (amended): on a success status with a payload matching neither
known envelope shape, `get_response` falls back to the stringified
payload (`str(data)`), sanitizes it, and returns a *success* carrying
that text; failures (and the protocol-like case of a body on which
`.json()` raises) are returned as classified failure values, never
raised past `get_response`. -/
theorem unknown_shape_stringified (b : Backend) (h : List Message)
    (u : String) (sc : Option String) (s2 : Nat) (r : String)
    (hp : b.primary = .ok s2 (.other r)) (h404 : s2 ≠ 404) (hlt : s2 < 400) :
    (get_response b h u sc).resp.success = true ∧
    (get_response b h u sc).resp.content = extractFinalAnswer r := by
  unfold get_response
  rw [hp]
  simp [h404, Nat.not_le.mpr hlt, extractRaw]

/-- Witness for C8 (amended). -/
theorem unknown_shape_stringified_witness :
    (get_response ⟨.ok 200 (.other "some unexpected payload"),
        .ok 200 (.message "ignored")⟩ [] "hi" none).resp.success = true ∧
    (get_response ⟨.ok 200 (.other "some unexpected payload"),
        .ok 200 (.message "ignored")⟩ [] "hi" none).resp.content =
      extractFinalAnswer "some unexpected payload" :=
  unknown_shape_stringified _ [] "hi" none 200 "some unexpected payload"
    rfl (by decide) (by decide)

/-! ### Claim C10 -/

/-- C10: the retried `/generate` request's prompt is built from the
fixed system prompt and the current user input only — the rendered
history window and the screen context (both free on the left, absent on
the right) are omitted, unlike in the primary request. -/
theorem generate_retry_omits_context (b : Backend) (h : List Message)
    (u : String) (sc : Option String) (body : JsonBody)
    (hp : b.primary = .ok 404 body) :
    (get_response b h u sc).requests.getLast? =
      some (.generate (systemPrompt ++ "\n\nUser: " ++ u ++ "\n\nAssistant:")) := by
  have := (retry_once_on_404 b h u sc body hp).1
  rw [this]
  rfl

/-- Witness for C10: with a nonempty history and a screen context, the
retry prompt still carries neither. -/
theorem generate_retry_omits_context_witness :
    (get_response ⟨.ok 404 .malformed, .transportError "down"⟩
        [⟨"user", "a"⟩, ⟨"assistant", "b"⟩] "hi" (some "screen stuff")).requests.getLast?
      = some (.generate (systemPrompt ++ "\n\nUser: " ++ "hi" ++ "\n\nAssistant:")) :=
  generate_retry_omits_context _ _ "hi" (some "screen stuff") .malformed rfl

/-! ### Claim C9 -/

/-- C9 counterexample: `"look at this"` contains the claimed keyword
"look at", yet the text-command path performs no screen capture and
passes no screen context — its keyword list lacks "look at". -/
theorem look_at_keyword_cex :
    containsSub ("look at").data (pyLower ("look at this").data) = true ∧
    Effect.screenCapture ∉
      (processCommandText ⟨true, "x", "SCREEN", ⟨.ok 200 (.message "All good."),
          .ok 200 (.message "y")⟩, false, false⟩ ⟨false, []⟩ "look at this").effects ∧
    (processCommandText ⟨true, "x", "SCREEN", ⟨.ok 200 (.message "All good."),
        .ok 200 (.message "y")⟩, false, false⟩ ⟨false, []⟩ "look at this").aiCalls =
      [("look at this", none)] := by
  refine ⟨by decide, by decide, by decide⟩

theorem count_screen_map_http (l : List Request) :
    (l.map Effect.httpPost).count Effect.screenCapture = 0 := by
  induction l with
  | nil => rfl
  | cons r rest ih => simp [List.count_cons, ih]

/-- C9 (amended): each command path scans the transcript
case-insensitively against its own fixed keyword list — six keywords
including "look at" on the voice path, five keywords without "look at"
on the text path.  On a match the screen capability is invoked exactly
once, before any backend request, and its result is passed as the
screen context; with no match there is no capture and no screen
context. -/
theorem screen_gate_amended (env : Env) (st : AssistantState) (text : String)
    (hg : st.processing = false) (hs : env.screenRaises = false)
    (ht : env.ttsRaises = false) (hstt : env.sttOk = true) :
    ((wantsScreen textScreenKeywords text = true →
        (processCommandText env st text).effects.head? = some .screenCapture ∧
        (processCommandText env st text).effects.count .screenCapture = 1 ∧
        (processCommandText env st text).aiCalls =
          [(text, some env.screenSummary)]) ∧
     (wantsScreen textScreenKeywords text = false →
        (processCommandText env st text).effects.count .screenCapture = 0 ∧
        (processCommandText env st text).aiCalls = [(text, none)])) ∧
    ((wantsScreen voiceScreenKeywords env.sttText = true →
        (processVoiceCommand env st).effects.take 2 =
          [.sttListen, .screenCapture] ∧
        (processVoiceCommand env st).effects.count .screenCapture = 1 ∧
        (processVoiceCommand env st).aiCalls =
          [(env.sttText, some env.screenSummary)]) ∧
     (wantsScreen voiceScreenKeywords env.sttText = false →
        (processVoiceCommand env st).effects.count .screenCapture = 0 ∧
        (processVoiceCommand env st).aiCalls = [(env.sttText, none)])) := by
  constructor
  · constructor
    · intro hw
      simp [processCommandText, hg, hs, ht, hw, List.count_cons,
        List.count_append, count_screen_map_http]
    · intro hw
      simp [processCommandText, hg, hs, ht, hw, List.count_cons,
        List.count_append, count_screen_map_http]
  · constructor
    · intro hw
      simp [processVoiceCommand, hg, hs, ht, hstt, hw, List.count_cons,
        List.count_append, count_screen_map_http]
    · intro hw
      simp [processVoiceCommand, hg, hs, ht, hstt, hw, List.count_cons,
        List.count_append, count_screen_map_http]

/-- A concrete environment for the C9 witness. -/
def gateEnv : Env :=
  ⟨true, "read my screen", "CTX",
   ⟨.ok 200 (.message "Nice."), .ok 200 (.message "z")⟩, false, false⟩

/-- Witness for C9 (amended) at a concrete environment whose transcript
contains the keyword "read". -/
theorem screen_gate_amended_witness :
    ((wantsScreen textScreenKeywords "plain words" = true →
        (processCommandText gateEnv ⟨false, []⟩ "plain words").effects.head? =
          some .screenCapture ∧
        (processCommandText gateEnv ⟨false, []⟩ "plain words").effects.count
          .screenCapture = 1 ∧
        (processCommandText gateEnv ⟨false, []⟩ "plain words").aiCalls =
          [("plain words", some gateEnv.screenSummary)]) ∧
     (wantsScreen textScreenKeywords "plain words" = false →
        (processCommandText gateEnv ⟨false, []⟩ "plain words").effects.count
          .screenCapture = 0 ∧
        (processCommandText gateEnv ⟨false, []⟩ "plain words").aiCalls =
          [("plain words", none)])) ∧
    ((wantsScreen voiceScreenKeywords gateEnv.sttText = true →
        (processVoiceCommand gateEnv ⟨false, []⟩).effects.take 2 =
          [.sttListen, .screenCapture] ∧
        (processVoiceCommand gateEnv ⟨false, []⟩).effects.count
          .screenCapture = 1 ∧
        (processVoiceCommand gateEnv ⟨false, []⟩).aiCalls =
          [(gateEnv.sttText, some gateEnv.screenSummary)]) ∧
     (wantsScreen voiceScreenKeywords gateEnv.sttText = false →
        (processVoiceCommand gateEnv ⟨false, []⟩).effects.count
          .screenCapture = 0 ∧
        (processVoiceCommand gateEnv ⟨false, []⟩).aiCalls =
          [(gateEnv.sttText, none)])) :=
  screen_gate_amended gateEnv ⟨false, []⟩ "plain words" rfl rfl rfl rfl
